import Mathlib

/-!
# Configuration resolution of `gdps-propane-dwnld` (`config/config.go`)

A shallow embedding of the `config` package: the working defaults record
`defs`, the published `Config`, and the five steps of `Config.Load`.

Modelling conventions.

* The package-level variable `defs` and the receiver `c` are threaded
  explicitly as a `State`.
* Everything the code obtains from outside the process is a field of `World`:
  the working directory, the defaults file, the environment, the session
  constructor and the parameter store.
* A Go `error` is a `GoError`; a `nil` error is `none`.
* A run-time panic (index out of range, nil pointer dereference) is the
  `Result.panic` outcome. A panic ends the run: the state it carries is the
  one reached before the panicking statement, and a nil `defs` is not a state
  of its own.
* Reflection over the fields of `defaults` is an enumeration `Field` with the
  Go field names, in declaration order.
-/

namespace GdpsConfig

/-- A Go `error` value, identified by its message. -/
structure GoError where
  msg : String
  deriving DecidableEq, Repr

/-- The struct `defaults` (lines 25-37). -/
structure defaults where
  AWSRegion : String := ""
  S3Bucket : String := ""
  S3FilePrefix : String := ""
  CognitoClientID : String := ""
  CognitoPoolID : String := ""
  CognitoRegion : String := ""
  DynamoAPIVersion : String := ""
  DynamoRegion : String := ""
  GraphqlURI : String := ""
  SsmPath : String := ""
  Stage : String := ""
  deriving DecidableEq, Repr

/-- The struct `Dynamo` (lines 52-55). -/
structure Dynamo where
  APIVersion : String
  Region : String
  deriving DecidableEq, Repr

/-- The type `StageEnvironment` is a string (line 58). -/
abbrev StageEnvironment := String

def DevEnv : StageEnvironment := "dev"
def StageEnv : StageEnvironment := "stage"
def TestEnv : StageEnvironment := "test"
def ProdEnv : StageEnvironment := "prod"

/-- The struct `config` (lines 39-49): the published fields. `Dynamo` is a
pointer, `none` is `nil`. -/
structure config where
  AWSRegion : String := ""
  S3Bucket : String := ""
  S3FilePrefix : String := ""
  CognitoClientID : String := ""
  CognitoPoolID : String := ""
  CognitoRegion : String := ""
  Dynamo : Option Dynamo := none
  GraphqlURI : String := ""
  Stage : StageEnvironment := ""
  deriving DecidableEq, Repr

/-- The struct `Config` (lines 19-22): `config` embedded, plus the file path. -/
structure Config extends config where
  DefaultsFilePath : String := ""
  deriving DecidableEq, Repr

/-- The fields of `defaults`, as reflection enumerates them. -/
inductive Field where
  | AWSRegion | S3Bucket | S3FilePrefix | CognitoClientID | CognitoPoolID
  | CognitoRegion | DynamoAPIVersion | DynamoRegion | GraphqlURI | SsmPath | Stage
  deriving DecidableEq, Repr

/-- The Go name of a field: `vals.Type().Field(i).Name`. -/
def Field.name : Field → String
  | .AWSRegion => "AWSRegion"
  | .S3Bucket => "S3Bucket"
  | .S3FilePrefix => "S3FilePrefix"
  | .CognitoClientID => "CognitoClientID"
  | .CognitoPoolID => "CognitoPoolID"
  | .CognitoRegion => "CognitoRegion"
  | .DynamoAPIVersion => "DynamoAPIVersion"
  | .DynamoRegion => "DynamoRegion"
  | .GraphqlURI => "GraphqlURI"
  | .SsmPath => "SsmPath"
  | .Stage => "Stage"

/-- The `yaml:"..."` tag of a field. -/
def Field.yamlKey : Field → String
  | .AWSRegion => "AWSRegion"
  | .S3Bucket => "S3Bucket"
  | .S3FilePrefix => "S3FilePrefix"
  | .CognitoClientID => "CognitoClientID"
  | .CognitoPoolID => "CognitoPoolID"
  | .CognitoRegion => "CognitoRegion"
  | .DynamoAPIVersion => "APIVersion"
  | .DynamoRegion => "Region"
  | .GraphqlURI => "GraphqlURI"
  | .SsmPath => "SsmPath"
  | .Stage => "Stage"

/-- The fields in declaration order: index `i` is `vals.Field(i)`. -/
def fieldList : List Field :=
  [.AWSRegion, .S3Bucket, .S3FilePrefix, .CognitoClientID, .CognitoPoolID,
   .CognitoRegion, .DynamoAPIVersion, .DynamoRegion, .GraphqlURI, .SsmPath, .Stage]

/-- Reading a field through reflection. -/
def defaults.get (d : defaults) : Field → String
  | .AWSRegion => d.AWSRegion
  | .S3Bucket => d.S3Bucket
  | .S3FilePrefix => d.S3FilePrefix
  | .CognitoClientID => d.CognitoClientID
  | .CognitoPoolID => d.CognitoPoolID
  | .CognitoRegion => d.CognitoRegion
  | .DynamoAPIVersion => d.DynamoAPIVersion
  | .DynamoRegion => d.DynamoRegion
  | .GraphqlURI => d.GraphqlURI
  | .SsmPath => d.SsmPath
  | .Stage => d.Stage

/-- Writing a field through reflection: `SetString` / `Set`. -/
def defaults.set (d : defaults) (f : Field) (v : String) : defaults :=
  match f with
  | .AWSRegion => { d with AWSRegion := v }
  | .S3Bucket => { d with S3Bucket := v }
  | .S3FilePrefix => { d with S3FilePrefix := v }
  | .CognitoClientID => { d with CognitoClientID := v }
  | .CognitoPoolID => { d with CognitoPoolID := v }
  | .CognitoRegion => { d with CognitoRegion := v }
  | .DynamoAPIVersion => { d with DynamoAPIVersion := v }
  | .DynamoRegion => { d with DynamoRegion := v }
  | .GraphqlURI => { d with GraphqlURI := v }
  | .SsmPath => { d with SsmPath := v }
  | .Stage => { d with Stage := v }

/-- The lookup `t.FieldByName(name)`: `none` is the invalid `Value`. -/
def FieldByName (n : String) : Option Field :=
  fieldList.find? (fun f => f.name == n)

/-- The field a key of the YAML document decodes into, by its tag. -/
def fieldByYamlKey (k : String) : Option Field :=
  fieldList.find? (fun f => f.yamlKey == k)

/-- A decoded defaults file: the key/scalar pairs of its top-level mapping in
document order, the error `yaml.Unmarshal` reports, if any, and whether the
document is the null scalar. For a null document the decoder stores a nil
pointer in `defs` and reports no error; an empty file has no document and is
not null. -/
structure YamlDoc where
  pairs : List (String × String)
  err : Option GoError := none
  isNull : Bool := false

/-- One entry of `res.Parameters`: `*r.Name` and `*r.Value`. -/
structure Parameter where
  name : String
  value : String
  deriving DecidableEq, Repr

/-- What the process reads from outside. -/
structure World where
  /-- The value of `path.Join(dir, defaultFileName)` for the working directory. -/
  defaultPath : String
  /-- The call `ioutil.ReadFile`, followed by the decoding of the bytes. -/
  readFile : String → Except GoError YamlDoc
  /-- The call `os.Getenv`: the empty string for an unset variable. -/
  getenv : String → String
  /-- The call `session.NewSession` for a region: its error. -/
  newSession : String → Option GoError
  /-- The call `svc.GetParametersByPath` for a region and a path. -/
  getParametersByPath : String → String → Except GoError (List Parameter)

/-- The receiver `c` and the package variable `defs`. -/
structure State where
  c : Config
  defs : defaults
  deriving DecidableEq, Repr

/-- How a method call ends: it returns an error value (possibly `nil`), or
the goroutine panics. -/
inductive Result where
  | ret (s : State) (err : Option GoError)
  | panic (s : State)
  deriving DecidableEq, Repr

/-- The state a call leaves behind. -/
def Result.state : Result → State
  | .ret s _ => s
  | .panic s => s

/-- Splitting a list of characters at every occurrence of `sep`. -/
def splitChars (sep : Char) : List Char → List (List Char)
  | [] => [[]]
  | ch :: cs =>
    if ch = sep then [] :: splitChars sep cs
    else
      match splitChars sep cs with
      | [] => [[ch]]
      | h :: t => (ch :: h) :: t

/-- The call `strings.Split(s, sep)` for a one-character separator. -/
def Split (s : String) (sep : Char) : List String :=
  (splitChars sep s.data).map String.mk

/-- The call `strings.Join(elems, sep)`. -/
def Join (elems : List String) (sep : String) : String :=
  sep.intercalate elems

/-- The decoding `yaml.Unmarshal(file, &defs)` into the existing record: each
key of the document that is the tag of a field assigns that field, in
document order; other fields keep their value. -/
def unmarshal (pairs : List (String × String)) (d : defaults) : defaults :=
  pairs.foldl
    (fun d kv =>
      match fieldByYamlKey kv.1 with
      | some f => d.set f kv.2
      | none => d)
    d

/-- The method `validateStage` (lines 130-157). -/
def validateStage (s : State) : Result :=
  match s.defs.Stage with
  | "dev" => .ret { s with c := { s.c with Stage := DevEnv } } none
  | "stage" => .ret { s with c := { s.c with Stage := StageEnv } } none
  | "test" => .ret { s with c := { s.c with Stage := TestEnv } } none
  | "prod" => .ret { s with c := { s.c with Stage := ProdEnv } } none
  | "production" => .ret { s with c := { s.c with Stage := ProdEnv } } none
  | _ => .ret s (some ⟨"Invalid Stage type"⟩)

/-- The method `setDefaults` (lines 108-127). After a null document `defs` is
a nil pointer and the read of `defs.Stage` in `validateStage` (line 134)
panics. -/
def setDefaults (w : World) (s : State) : Result :=
  let s1 : State :=
    if s.c.DefaultsFilePath = "" then
      { s with c := { s.c with DefaultsFilePath := w.defaultPath } }
    else s
  match w.readFile s1.c.DefaultsFilePath with
  | .error e => .ret s1 (some e)
  | .ok doc =>
    let s2 : State := { s1 with defs := unmarshal doc.pairs s1.defs }
    match doc.err with
    | some e => .ret s2 (some e)
    | none => if doc.isNull then .panic s2 else validateStage s2

/-- The loop of `setEnvVars` (lines 163-175) over the remaining fields, with
the current value of the named result `err`. -/
def setEnvVarsLoop (w : World) : List Field → State → Option GoError → Result
  | [], s, err => .ret s err
  | f :: fs, s, err =>
    let nm := f.name
    let e := w.getenv nm
    let s1 : State := if e ≠ "" then { s with defs := s.defs.set f e } else s
    if nm = "Stage" then
      match validateStage s1 with
      | .ret s2 none => setEnvVarsLoop w fs s2 none
      | r => r
    else setEnvVarsLoop w fs s1 err

/-- The method `setEnvVars` (lines 160-178). -/
def setEnvVars (w : World) (s : State) : Result :=
  setEnvVarsLoop w fieldList s none

/-- The method `GetStageEnv` (lines 103-105). -/
def GetStageEnv (s : State) : StageEnvironment := s.c.Stage

/-- The path queried by `setSSMParams` (lines 182-183). -/
def paramPath (s : State) : String :=
  Join ["", GetStageEnv s, s.defs.SsmPath] "/"

/-- The loop of `setSSMParams` (lines 209-215). -/
def setSSMParamsLoop : List Parameter → State → Result
  | [], s => .ret s none
  | r :: rs, s =>
    match (Split r.name '/')[3]? with
    | none => .panic s
    | some paramName =>
      match FieldByName paramName with
      | some structKey => setSSMParamsLoop rs { s with defs := s.defs.set structKey r.value }
      | none => setSSMParamsLoop rs s

/-- The method `setSSMParams` (lines 180-217). -/
def setSSMParams (w : World) (s : State) : Result :=
  let path := paramPath s
  match w.newSession s.defs.AWSRegion with
  | some e => .ret s (some e)
  | none =>
    match w.getParametersByPath s.defs.AWSRegion path with
    | .error e => .ret s (some e)
    | .ok params =>
      if params.length = 0 then .ret s none
      else setSSMParamsLoop params s

/-- The method `setDynamo` (lines 220-227). -/
def setDynamo (s : State) : Result :=
  .ret { s with c := { s.c with
      Dynamo := some { APIVersion := s.defs.DynamoAPIVersion, Region := s.defs.DynamoRegion } } }
    none

/-- The method `setFinal` (lines 230-242). -/
def setFinal (s : State) : Result :=
  validateStage { s with c := { s.c with
    AWSRegion := s.defs.AWSRegion
    CognitoClientID := s.defs.CognitoClientID
    CognitoPoolID := s.defs.CognitoPoolID
    CognitoRegion := s.defs.CognitoRegion
    GraphqlURI := s.defs.GraphqlURI
    S3Bucket := s.defs.S3Bucket
    S3FilePrefix := s.defs.S3FilePrefix } }

/-- The method `Load` (lines 75-100). -/
def Load (w : World) (s : State) : Result :=
  match setDefaults w s with
  | .panic s1 => .panic s1
  | .ret s1 (some e) => .ret s1 (some e)
  | .ret s1 none =>
    match setEnvVars w s1 with
    | .panic s2 => .panic s2
    | .ret s2 (some e) => .ret s2 (some e)
    | .ret s2 none =>
      match setSSMParams w s2 with
      | .panic s3 => .panic s3
      | .ret s3 (some e) => .ret s3 (some e)
      | .ret s3 none =>
        match setDynamo s3 with
        | .panic s4 => .panic s4
        | .ret s4 (some e) => .ret s4 (some e)
        | .ret s4 none => setFinal s4

end GdpsConfig

namespace GdpsConfig

/-- The stage literals the specification accepts. -/
def validStages : List String := ["dev", "stage", "test", "prod", "production"]

/-- The members of the stage enumeration. -/
def stageEnum : List StageEnvironment := [DevEnv, StageEnv, TestEnv, ProdEnv]

/-- The normalisation of a stage literal in the specification's words:
`production` becomes `prod`, every other literal is kept. -/
def normaliseStage (x : String) : StageEnvironment :=
  if x = "production" then "prod" else x

/-- The file `setDefaults` reads: the configured path, or the default one. -/
def filePath (w : World) (s : State) : String :=
  if s.c.DefaultsFilePath = "" then w.defaultPath else s.c.DefaultsFilePath

/-- The effect of the environment on a list of fields, in the specification's
words: a field whose variable is set and non-empty takes the variable's value. -/
def envOverride (w : World) (fs : List Field) (d : defaults) : defaults :=
  fs.foldl (fun d f => if w.getenv f.name ≠ "" then d.set f (w.getenv f.name) else d) d

/-- A linear chain of steps in the specification's words: the steps run in
order and the first one that does not return a nil error ends the chain with
its own result. -/
def runSteps : List (State → Result) → State → Result
  | [], s => .ret s none
  | [step], s => step s
  | step :: rest, s =>
    match step s with
    | .ret s1 none => runSteps rest s1
    | r => r

/-- The target segment of a parameter is the name of field `F`. -/
def targets (F : Field) (r : Parameter) : Bool :=
  (Split r.name '/')[3]? == some F.name

/-- The effect of a list of parameters on the working defaults: each
parameter whose segment 3 names a field assigns that field, in order. -/
def ssmOverride (ps : List Parameter) (d : defaults) : defaults :=
  ps.foldl
    (fun d r =>
      match (Split r.name '/')[3]? with
      | some seg =>
        match FieldByName seg with
        | some f => d.set f r.value
        | none => d
      | none => d)
    d

/-- The published verbatim copy of a working-defaults field: the seven
strings `setFinal` copies and the two `setDynamo` copies. `SsmPath` is not
published and `Stage` is published normalised, as `Config.Stage`. -/
def Config.copyOf (c : Config) : Field → Option String
  | .AWSRegion => some c.AWSRegion
  | .S3Bucket => some c.S3Bucket
  | .S3FilePrefix => some c.S3FilePrefix
  | .CognitoClientID => some c.CognitoClientID
  | .CognitoPoolID => some c.CognitoPoolID
  | .CognitoRegion => some c.CognitoRegion
  | .DynamoAPIVersion => c.Dynamo.map (fun y => y.APIVersion)
  | .DynamoRegion => c.Dynamo.map (fun y => y.Region)
  | .GraphqlURI => some c.GraphqlURI
  | .SsmPath => none
  | .Stage => none

/-- A world for the examples: a defaults file at the default path with stage
`dev`, the variable `Stage=prod`, and one parameter under `/prod/myapp`. -/
def exWorld : World where
  defaultPath := "/app/defaults.yaml"
  readFile := fun p =>
    if p = "/app/defaults.yaml" then
      .ok { pairs := [("AWSRegion", "ca-central-1"), ("S3Bucket", "default-bucket"),
                      ("APIVersion", "2012-08-10"), ("Region", "ca-central-1"),
                      ("SsmPath", "myapp"), ("Stage", "dev")] }
    else .error ⟨"no such file or directory"⟩
  getenv := fun n => if n = "Stage" then "prod" else ""
  newSession := fun _ => none
  getParametersByPath := fun _ path =>
    if path = "/prod/myapp" then .ok [⟨"/prod/myapp/S3Bucket", "my-bucket"⟩] else .ok []

/-- The example world with a stored parameter that overwrites the stage. -/
def exWorldStage : World :=
  { exWorld with
    getParametersByPath := fun _ path =>
      if path = "/prod/myapp" then .ok [⟨"/prod/myapp/Stage", "production"⟩] else .ok [] }

/-- The working defaults the file of `exWorld` decodes to. -/
def exFileDefs : defaults :=
  { AWSRegion := "ca-central-1", S3Bucket := "default-bucket",
    DynamoAPIVersion := "2012-08-10", DynamoRegion := "ca-central-1",
    SsmPath := "myapp", Stage := "dev" }

/-- The state `Load` ends in for `exWorldStage`, from the zero state. -/
def exStageFinal : State :=
  { c := { AWSRegion := "ca-central-1", S3Bucket := "default-bucket",
           Dynamo := some ⟨"2012-08-10", "ca-central-1"⟩, Stage := "prod",
           DefaultsFilePath := "/app/defaults.yaml" },
    defs := { exFileDefs with Stage := "production" } }

/-- A world whose defaults file sets no `SsmPath`: the path queried is
`/prod/` and the parameter below it has three segments. -/
def exWorldShort : World where
  defaultPath := "/app/defaults.yaml"
  readFile := fun _ => .ok { pairs := [("S3Bucket", "default-bucket"), ("Stage", "prod")] }
  getenv := fun _ => ""
  newSession := fun _ => none
  getParametersByPath := fun _ path =>
    if path = "/prod/" then .ok [⟨"/prod/S3Bucket", "my-bucket"⟩] else .ok []

/-- The state `exWorldShort` is in when `setSSMParams` starts. -/
def exShortState : State :=
  { c := { Stage := "prod", DefaultsFilePath := "/app/defaults.yaml" },
    defs := { S3Bucket := "default-bucket", Stage := "prod" } }

/-- A world whose configured sub-path contains a `/`: the parameter names
below `/prod/my/app` have five segments. -/
def exWorldDeep : World where
  defaultPath := "/app/defaults.yaml"
  readFile := fun _ =>
    .ok { pairs := [("S3Bucket", "default-bucket"), ("SsmPath", "my/app"), ("Stage", "prod")] }
  getenv := fun _ => ""
  newSession := fun _ => none
  getParametersByPath := fun _ path =>
    if path = "/prod/my/app" then .ok [⟨"/prod/my/app/S3Bucket", "my-bucket"⟩] else .ok []

/-- The state `exWorldDeep` is in when `setSSMParams` starts. -/
def exDeepState : State :=
  { c := { Stage := "prod", DefaultsFilePath := "/app/defaults.yaml" },
    defs := { S3Bucket := "default-bucket", SsmPath := "my/app", Stage := "prod" } }

/-- The state `exWorld` is in after `setDefaults`. -/
def exAfterDefaults : State :=
  { c := { Stage := "dev", DefaultsFilePath := "/app/defaults.yaml" }, defs := exFileDefs }

/-- The state `exWorld` is in after `setEnvVars`. -/
def exAfterEnv : State :=
  { c := { Stage := "prod", DefaultsFilePath := "/app/defaults.yaml" },
    defs := { exFileDefs with Stage := "prod" } }

/-- The example world with the variables `APIVersion` and `Region` set, named
after the keys of the defaults file. -/
def exWorldKeys : World :=
  { exWorld with
    getenv := fun n =>
      if n = "APIVersion" then "2020-01-01" else if n = "Region" then "eu-west-1" else ""
    getParametersByPath := fun _ _ => .ok [] }

/-- A world whose defaults file has the single key `Stage`. -/
def exWorldPartial : World where
  defaultPath := "/app/defaults.yaml"
  readFile := fun _ => .ok { pairs := [("Stage", "prod")] }
  getenv := fun _ => ""
  newSession := fun _ => none
  getParametersByPath := fun _ _ => .ok []

/-- The example world with an unreadable defaults file. -/
def exWorldUnreadable : World :=
  { exWorld with readFile := fun _ => .error ⟨"permission denied"⟩ }

/-- A world whose defaults file has all eleven keys. -/
def exWorldFull : World where
  defaultPath := "/app/defaults.yaml"
  readFile := fun _ =>
    .ok { pairs := [("AWSRegion", "ca-central-1"), ("S3Bucket", "default-bucket"),
                    ("S3FilePrefix", "dwnld"), ("CognitoClientID", "client"),
                    ("CognitoPoolID", "pool"), ("CognitoRegion", "ca-central-1"),
                    ("APIVersion", "2012-08-10"), ("Region", "ca-central-1"),
                    ("GraphqlURI", "https://example.com/graphql"), ("SsmPath", "myapp"),
                    ("Stage", "prod")] }
  getenv := fun _ => ""
  newSession := fun _ => none
  getParametersByPath := fun _ _ => .ok []

/-- What the caller of a method observes: whether it panicked, the error it
returned, and the receiver with its published fields. -/
structure Outcome where
  panicked : Bool
  err : Option GoError
  c : Config
  deriving DecidableEq, Repr

/-- The outcome of a call. -/
def Result.outcome : Result → Outcome
  | .ret s e => { panicked := false, err := e, c := s.c }
  | .panic s => { panicked := true, err := none, c := s.c }

/-- The state before the first `Load`: a zero `Config` and `defs = &defaults{}`. -/
def initState : State := { c := {}, defs := {} }

/-! ## Auxiliary facts -/

theorem validateStage_eq (s : State) :
    validateStage s =
      if s.defs.Stage ∈ validStages then
        .ret { s with c := { s.c with Stage := normaliseStage s.defs.Stage } } none
      else .ret s (some ⟨"Invalid Stage type"⟩) := by
  unfold validateStage
  split <;> simp_all [validStages, normaliseStage, DevEnv, StageEnv, TestEnv, ProdEnv]

theorem normaliseStage_mem {x : String} (h : x ∈ validStages) : normaliseStage x ∈ stageEnum := by
  simp only [validStages, List.mem_cons, List.mem_singleton, List.not_mem_nil, or_false] at h
  rcases h with h | h | h | h | h <;> subst h <;> decide

theorem get_set (d : defaults) (F G : Field) (v : String) :
    (d.set G v).get F = if F = G then v else d.get F := by
  cases F <;> cases G <;> rfl

theorem defaults_ext {d1 d2 : defaults} (h : ∀ F, d1.get F = d2.get F) : d1 = d2 := by
  cases d1; cases d2
  have h1 := h .AWSRegion; have h2 := h .S3Bucket; have h3 := h .S3FilePrefix
  have h4 := h .CognitoClientID; have h5 := h .CognitoPoolID; have h6 := h .CognitoRegion
  have h7 := h .DynamoAPIVersion; have h8 := h .DynamoRegion; have h9 := h .GraphqlURI
  have h10 := h .SsmPath; have h11 := h .Stage
  simp only [defaults.get] at h1 h2 h3 h4 h5 h6 h7 h8 h9 h10 h11
  simp [*]

theorem name_eq_Stage (f : Field) : f.name = "Stage" ↔ f = .Stage := by
  cases f <;> decide

theorem name_injective {F G : Field} (h : F.name = G.name) : F = G := by
  revert h; cases F <;> cases G <;> decide

theorem yamlKey_injective {F G : Field} (h : F.yamlKey = G.yamlKey) : F = G := by
  revert h; cases F <;> cases G <;> decide

theorem FieldByName_name (F : Field) : FieldByName F.name = some F := by
  cases F <;> decide

theorem FieldByName_some {n : String} {F : Field} (h : FieldByName n = some F) : F.name = n := by
  unfold FieldByName at h
  have := List.find?_some h
  simpa using this

theorem fieldByYamlKey_yamlKey (F : Field) : fieldByYamlKey F.yamlKey = some F := by
  cases F <;> decide

theorem fieldByYamlKey_some {k : String} {F : Field} (h : fieldByYamlKey k = some F) :
    F.yamlKey = k := by
  unfold fieldByYamlKey at h
  have := List.find?_some h
  simpa using this

theorem mem_fieldList (F : Field) : F ∈ fieldList := by
  cases F <;> decide

/-- The loop of `setEnvVars` over fields other than `Stage` never returns
early: it applies the environment to each field and keeps `err`. -/
theorem setEnvVarsLoop_noStage (w : World) (fs : List Field) (s : State) (err : Option GoError)
    (h : ∀ f ∈ fs, f ≠ .Stage) :
    setEnvVarsLoop w fs s err = .ret { s with defs := envOverride w fs s.defs } err := by
  induction fs generalizing s with
  | nil => rfl
  | cons f fs ih =>
    have hf : f.name ≠ "Stage" := fun hn => h f (List.mem_cons_self _ _) ((name_eq_Stage f).1 hn)
    have ih2 := fun s => ih s (fun g hg => h g (List.mem_cons_of_mem _ hg))
    simp only [setEnvVarsLoop, hf, if_false, envOverride, List.foldl_cons]
    by_cases he : w.getenv f.name = ""
    · simp [he, ih2, envOverride]
    · simp [he, ih2, envOverride]

theorem envOverride_append (w : World) (fs gs : List Field) (d : defaults) :
    envOverride w (fs ++ gs) d = envOverride w gs (envOverride w fs d) := by
  simp [envOverride, List.foldl_append]

theorem envOverride_get (w : World) (fs : List Field) (d : defaults) (F : Field) :
    (envOverride w fs d).get F =
      if F ∈ fs ∧ w.getenv F.name ≠ "" then w.getenv F.name else d.get F := by
  induction fs generalizing d with
  | nil => simp [envOverride]
  | cons f fs ih =>
    have hstep : envOverride w (f :: fs) d =
        envOverride w fs (if w.getenv f.name ≠ "" then d.set f (w.getenv f.name) else d) := by
      simp [envOverride]
    rw [hstep, ih]
    by_cases hF : F = f
    · subst hF
      by_cases he : w.getenv F.name = ""
      · simp [he]
      · simp [he, get_set]
    · by_cases he : w.getenv f.name = ""
      · simp [he, hF]
      · simp [he, hF, get_set]

theorem setEnvVarsLoop_append (w : World) (fs gs : List Field) (s : State)
    (err : Option GoError) (h : ∀ f ∈ fs, f ≠ .Stage) :
    setEnvVarsLoop w (fs ++ gs) s err =
      setEnvVarsLoop w gs { s with defs := envOverride w fs s.defs } err := by
  induction fs generalizing s with
  | nil => rfl
  | cons f fs ih =>
    have hf : f.name ≠ "Stage" := fun hn => h f (List.mem_cons_self _ _) ((name_eq_Stage f).1 hn)
    have ih2 := fun s => ih s (fun g hg => h g (List.mem_cons_of_mem _ hg))
    simp only [List.cons_append, setEnvVarsLoop, hf, if_false, envOverride, List.foldl_cons]
    by_cases he : w.getenv f.name = ""
    · simp [he, ih2, envOverride]
    · simp [he, ih2, envOverride]

theorem setEnvVarsLoop_Stage (w : World) (s : State) (err : Option GoError) :
    setEnvVarsLoop w [.Stage] s err =
      validateStage { s with defs := envOverride w [.Stage] s.defs } := by
  have hs : (if w.getenv Field.Stage.name ≠ "" then
        ({ s with defs := s.defs.set .Stage (w.getenv Field.Stage.name) } : State) else s) =
      { s with defs := envOverride w [.Stage] s.defs } := by
    by_cases he : w.getenv Field.Stage.name = "" <;> simp [he, envOverride]
  simp only [setEnvVarsLoop]
  rw [hs]
  have hn : Field.Stage.name = "Stage" := rfl
  simp only [hn, if_true]
  generalize validateStage { s with defs := envOverride w [.Stage] s.defs } = r
  cases r with
  | ret s2 e => cases e <;> rfl
  | panic s2 => rfl

/-- The step `setEnvVars` is the environment applied to every field, followed
by one stage validation. -/
theorem setEnvVars_eq (w : World) (s : State) :
    setEnvVars w s = validateStage { s with defs := envOverride w fieldList s.defs } := by
  have hsplit : fieldList =
      [.AWSRegion, .S3Bucket, .S3FilePrefix, .CognitoClientID, .CognitoPoolID,
        .CognitoRegion, .DynamoAPIVersion, .DynamoRegion, .GraphqlURI, .SsmPath] ++ [.Stage] := rfl
  unfold setEnvVars
  rw [hsplit, setEnvVarsLoop_append _ _ _ _ _ (by decide), setEnvVarsLoop_Stage,
    envOverride_append]

theorem getElem?_three_isSome {α : Type} (l : List α) : (∃ x, l[3]? = some x) ↔ 4 ≤ l.length := by
  constructor
  · rintro ⟨x, hx⟩
    by_contra hlt
    have : l[3]? = none := List.getElem?_eq_none (by omega)
    rw [this] at hx
    cases hx
  · intro h
    exact ⟨l[3], List.getElem?_eq_getElem (by omega)⟩

/-- When every name has at least four segments the loop of `setSSMParams`
runs to its end and returns `nil`. -/
theorem setSSMParamsLoop_ok (ps : List Parameter) (s : State)
    (h : ∀ p ∈ ps, 4 ≤ (Split p.name '/').length) :
    setSSMParamsLoop ps s = .ret { s with defs := ssmOverride ps s.defs } none := by
  induction ps generalizing s with
  | nil => rfl
  | cons r rs ih =>
    obtain ⟨seg, hseg⟩ := (getElem?_three_isSome _).2 (h r (List.mem_cons_self _ _))
    have ih2 := fun s => ih s (fun q hq => h q (List.mem_cons_of_mem _ hq))
    simp only [setSSMParamsLoop, hseg, ssmOverride, List.foldl_cons]
    cases hF : FieldByName seg with
    | none => simp [ih2, ssmOverride]
    | some f => simp [ih2, ssmOverride]

/-- The loop of `setSSMParams` panics exactly when some name has fewer than
four segments. -/
theorem setSSMParamsLoop_panic_iff (ps : List Parameter) (s : State) :
    (∃ s1, setSSMParamsLoop ps s = .panic s1) ↔ ∃ p ∈ ps, (Split p.name '/').length < 4 := by
  induction ps generalizing s with
  | nil => simp [setSSMParamsLoop]
  | cons r rs ih =>
    by_cases hlen : 4 ≤ (Split r.name '/').length
    · obtain ⟨seg, hseg⟩ := (getElem?_three_isSome _).2 hlen
      have hr : ¬ (Split r.name '/').length < 4 := by omega
      simp only [setSSMParamsLoop, hseg, List.mem_cons, exists_eq_or_imp, hr, false_or]
      cases hF : FieldByName seg with
      | none => simpa using ih s
      | some f => simpa using ih _
    · have hnone : (Split r.name '/')[3]? = none := List.getElem?_eq_none (by omega)
      have hr : (Split r.name '/').length < 4 := by omega
      simp only [setSSMParamsLoop, hnone, List.mem_cons, exists_eq_or_imp, hr, true_or, iff_true]
      exact ⟨s, rfl⟩

theorem ssmOverride_cons (r : Parameter) (rs : List Parameter) (d : defaults) :
    ssmOverride (r :: rs) d =
      ssmOverride rs
        (match (Split r.name '/')[3]? with
          | some seg =>
            match FieldByName seg with
            | some f => d.set f r.value
            | none => d
          | none => d) := rfl

/-- Parameters that do not target `F` leave `F` alone. -/
theorem ssmOverride_get_of_not_targets (ps : List Parameter) (d : defaults) (F : Field)
    (h : ps.filter (targets F) = []) : (ssmOverride ps d).get F = d.get F := by
  induction ps generalizing d with
  | nil => rfl
  | cons r rs ih =>
    have hr : targets F r = false := by
      cases ht : targets F r with
      | false => rfl
      | true => simp [List.filter_cons, ht] at h
    have hrs : rs.filter (targets F) = [] := by
      simpa [List.filter_cons, hr] using h
    rw [ssmOverride_cons, ih _ hrs]
    cases h3 : (Split r.name '/')[3]? with
    | none => rfl
    | some seg =>
      cases hF : FieldByName seg with
      | none => simp only [hF]
      | some f =>
        have hne : F ≠ f := by
          intro hEq
          subst hEq
          have := FieldByName_some hF
          simp [targets, h3, this] at hr
        simp only [hF, get_set, hne, if_false]

/-- When exactly one parameter targets `F`, `F` ends with its value. -/
theorem ssmOverride_get_of_unique (ps : List Parameter) (d : defaults) (F : Field)
    (p : Parameter) (h : ps.filter (targets F) = [p]) : (ssmOverride ps d).get F = p.value := by
  induction ps generalizing d with
  | nil => simp at h
  | cons r rs ih =>
    rw [ssmOverride_cons]
    by_cases hr : targets F r = true
    · simp only [List.filter_cons, hr, if_true, List.cons.injEq] at h
      obtain ⟨hrp, hrs⟩ := h
      subst hrp
      rw [ssmOverride_get_of_not_targets _ _ _ hrs]
      have h3 : (Split r.name '/')[3]? = some F.name := by simpa [targets] using hr
      simp [h3, FieldByName_name, get_set]
    · have hrs : rs.filter (targets F) = [p] := by
        simpa [List.filter_cons, hr] using h
      exact ih _ hrs

/-- The last two steps of `Load`. -/
theorem setDynamo_setFinal (s : State) :
    ∃ s1 e, setFinal (setDynamo s).state = .ret s1 e ∧ s1.defs = s.defs ∧
      (∀ F, F ≠ .SsmPath → F ≠ .Stage → s1.c.copyOf F = some (s.defs.get F)) ∧
      (e = none → s1.c.Stage = normaliseStage s.defs.Stage) := by
  simp only [setDynamo, Result.state, setFinal]
  rw [validateStage_eq]
  split
  · refine ⟨_, none, rfl, rfl, ?_, fun _ => rfl⟩
    intro F h1 h2
    cases F <;> first | rfl | exact absurd rfl h1 | exact absurd rfl h2
  · refine ⟨_, some _, rfl, rfl, ?_, by simp⟩
    intro F h1 h2
    cases F <;> first | rfl | exact absurd rfl h1 | exact absurd rfl h2

theorem Load_of_steps (w : World) (s s1 s2 s3 : State) (hd : setDefaults w s = .ret s1 none)
    (he : setEnvVars w s1 = .ret s2 none) (hp : setSSMParams w s2 = .ret s3 none) :
    Load w s = setFinal (setDynamo s3).state := by
  simp [Load, hd, he, hp, setDynamo, Result.state]

/-! ## The stage validator -/

/-- Claim C1. `validateStage` returns no error exactly when the working
defaults' stage is one of `dev`, `stage`, `test`, `prod`, `production`; on
success it leaves everything but `Config.Stage` alone and sets `Config.Stage`
to the stage itself, `production` becoming `prod`; on every other string,
the empty one included, it returns the error `Invalid Stage type` and changes
nothing. -/
theorem validateStage_spec (s : State) :
    ((∃ s1, validateStage s = .ret s1 none) ↔
        s.defs.Stage ∈ ["dev", "stage", "test", "prod", "production"]) ∧
    validateStage s =
      (if s.defs.Stage ∈ ["dev", "stage", "test", "prod", "production"] then
        .ret { s with c := { s.c with
                Stage := if s.defs.Stage = "production" then "prod" else s.defs.Stage } } none
      else .ret s (some ⟨"Invalid Stage type"⟩)) ∧
    validateStage { s with defs := { s.defs with Stage := "" } } =
      .ret { s with defs := { s.defs with Stage := "" } } (some ⟨"Invalid Stage type"⟩) := by
  have h := validateStage_eq s
  simp only [validStages, normaliseStage] at h
  refine ⟨?_, h, ?_⟩
  · rw [h]
    split
    · simp [*]
    · simp [*]
  · rw [validateStage_eq]
    simp [validStages]

/-- Claim C2. Whenever `Load` returns without error, the published stage is
one of `dev`, `stage`, `test`, `prod`, it is the normalisation of the working
defaults' stage as it stands at the end of the run, and that final working
stage is one of the five accepted literals (so neither invalid nor empty). -/
theorem Load_stage_valid (w : World) (s s1 : State) (h : Load w s = .ret s1 none) :
    s1.c.Stage ∈ [DevEnv, StageEnv, TestEnv, ProdEnv] ∧
    s1.c.Stage = normaliseStage s1.defs.Stage ∧
    s1.defs.Stage ∈ ["dev", "stage", "test", "prod", "production"] ∧
    s1.defs.Stage ≠ "" := by
  unfold Load at h
  split at h
  · cases h
  · cases h
  · split at h
    · cases h
    · cases h
    · split at h
      · cases h
      · cases h
      · split at h
        · cases h
        · cases h
        · rename_i s4 _
          rw [setFinal, validateStage_eq] at h
          split at h
          · rename_i hv
            simp only [Result.ret.injEq, and_true] at h
            subst h
            refine ⟨normaliseStage_mem hv, rfl, hv, ?_⟩
            intro h0
            simp only at h0 hv
            rw [h0] at hv
            revert hv
            decide
          · cases h

/-- Witness of C2: in the example world whose stored parameter sets the stage
to `production`, `Load` succeeds and publishes `prod`. -/
theorem Load_stage_valid_witness :
    Load exWorldStage initState = .ret exStageFinal none ∧
    (exStageFinal.c.Stage ∈ [DevEnv, StageEnv, TestEnv, ProdEnv] ∧
      exStageFinal.c.Stage = normaliseStage exStageFinal.defs.Stage ∧
      exStageFinal.defs.Stage ∈ ["dev", "stage", "test", "prod", "production"] ∧
      exStageFinal.defs.Stage ≠ "") :=
  ⟨by decide, Load_stage_valid exWorldStage initState exStageFinal (by decide)⟩

/-! ## The environment pass -/

/-- Claim C3. `setEnvVars` always returns; afterwards every field of the
working defaults holds the value of the environment variable with exactly the
field's name when that variable is non-empty (an unset variable reads as
empty), and its previous value otherwise; the step returns an error exactly
when the resulting stage is not one of the five accepted literals, and on
success the published stage is the normalised resulting stage. -/
theorem setEnvVars_spec (w : World) (s : State) :
    ∃ s1 e, setEnvVars w s = .ret s1 e ∧
      (∀ F : Field, s1.defs.get F =
        if w.getenv F.name ≠ "" then w.getenv F.name else s.defs.get F) ∧
      (e ≠ none ↔ s1.defs.Stage ∉ ["dev", "stage", "test", "prod", "production"]) ∧
      (e = none → s1.c.Stage = normaliseStage s1.defs.Stage) := by
  have hget : ∀ F : Field, (envOverride w fieldList s.defs).get F =
      if w.getenv F.name ≠ "" then w.getenv F.name else s.defs.get F := by
    intro F
    rw [envOverride_get]
    simp [mem_fieldList]
  rw [setEnvVars_eq, validateStage_eq]
  split
  · rename_i hv
    exact ⟨_, none, rfl, hget, ⟨fun h => absurd rfl h, fun h => absurd hv h⟩, fun _ => rfl⟩
  · rename_i hv
    exact ⟨_, some _, rfl, hget, ⟨fun _ => hv, fun _ => by simp⟩, by simp⟩

/-- Witness of C3: with stage `dev` from the file and the variable
`Stage=prod`, the step succeeds and both the working and the published stage
are `prod`. -/
theorem setEnvVars_spec_witness :
    setEnvVars exWorld { c := {}, defs := exFileDefs } =
        .ret { c := { Stage := "prod" }, defs := { exFileDefs with Stage := "prod" } } none ∧
    ∃ s1 e, setEnvVars exWorld { c := {}, defs := exFileDefs } = .ret s1 e ∧
      (∀ F : Field, s1.defs.get F =
        if exWorld.getenv F.name ≠ "" then exWorld.getenv F.name else exFileDefs.get F) ∧
      (e ≠ none ↔ s1.defs.Stage ∉ ["dev", "stage", "test", "prod", "production"]) ∧
      (e = none → s1.c.Stage = normaliseStage s1.defs.Stage) :=
  ⟨by decide, setEnvVars_spec exWorld { c := {}, defs := exFileDefs }⟩

/-! ## The remote parameters -/

/-- Claim C4. When the first two steps succeed (the file and the environment
give a valid stage), the session is created and the store returns parameters
whose names all have at least four segments, of which exactly one, `p`, has
segment 3 equal to the name of field `F`: `Load` returns, the working-defaults
field `F` holds the value of `p`; where `F` has a published verbatim copy that
copy holds the value of `p` too; and for `F = Stage` the published stage of a
successful `Load` is the normalised value of `p`. -/
theorem Load_param_override (w : World) (s s1 s2 : State) (ps : List Parameter)
    (p : Parameter) (F : Field)
    (hd : setDefaults w s = .ret s1 none) (he : setEnvVars w s1 = .ret s2 none)
    (hs : w.newSession s2.defs.AWSRegion = none)
    (hf : w.getParametersByPath s2.defs.AWSRegion (paramPath s2) = .ok ps)
    (hseg : ∀ q ∈ ps, 4 ≤ (Split q.name '/').length)
    (huniq : ps.filter (fun q => (Split q.name '/')[3]? == some F.name) = [p]) :
    ∃ s3 e, Load w s = .ret s3 e ∧ s3.defs.get F = p.value ∧
      (F ≠ .SsmPath → F ≠ .Stage → s3.c.copyOf F = some p.value) ∧
      (F = .Stage → e = none → s3.c.Stage = normaliseStage p.value) := by
  have hne : ps.length ≠ 0 := by
    intro h0
    rw [List.length_eq_zero.1 h0] at huniq
    cases huniq
  have hp : setSSMParams w s2 = .ret { s2 with defs := ssmOverride ps s2.defs } none := by
    simp only [setSSMParams, hs, hf, hne, if_false]
    exact setSSMParamsLoop_ok ps s2 hseg
  have hget : (ssmOverride ps s2.defs).get F = p.value :=
    ssmOverride_get_of_unique ps s2.defs F p huniq
  obtain ⟨s3, e, h3, hdefs, hcopy, hstage⟩ :=
    setDynamo_setFinal { s2 with defs := ssmOverride ps s2.defs }
  refine ⟨s3, e, ?_, ?_, ?_, ?_⟩
  · rw [Load_of_steps w s s1 s2 _ hd he hp, h3]
  · rw [hdefs]; exact hget
  · intro h1 h2
    rw [hcopy F h1 h2]
    exact congrArg some hget
  · intro hF hnone
    subst hF
    rw [hstage hnone]
    exact congrArg normaliseStage hget

/-- Witness of C4: the parameter `/prod/myapp/S3Bucket` with value
`my-bucket` under stage `prod` gives `S3Bucket = my-bucket`, in the working
defaults and in the published configuration. -/
theorem Load_param_override_witness :
    (Load exWorld initState).state.c.S3Bucket = "my-bucket" ∧
    ∃ s3 e, Load exWorld initState = .ret s3 e ∧
      s3.defs.get .S3Bucket = (Parameter.mk "/prod/myapp/S3Bucket" "my-bucket").value ∧
      (Field.S3Bucket ≠ .SsmPath → Field.S3Bucket ≠ .Stage →
        s3.c.copyOf .S3Bucket = some (Parameter.mk "/prod/myapp/S3Bucket" "my-bucket").value) ∧
      (Field.S3Bucket = .Stage → e = none →
        s3.c.Stage = normaliseStage (Parameter.mk "/prod/myapp/S3Bucket" "my-bucket").value) :=
  ⟨by decide,
    Load_param_override exWorld initState exAfterDefaults exAfterEnv
      [⟨"/prod/myapp/S3Bucket", "my-bucket"⟩] ⟨"/prod/myapp/S3Bucket", "my-bucket"⟩ .S3Bucket
      (by decide) (by decide) (by decide) (by rfl) (by decide) (by decide)⟩

/-- Claim C5, as stated, fails: in a world whose defaults file sets no
`SsmPath`, the store returns `/prod/S3Bucket`; no parameter has a target
segment that names a field, and the step panics instead of returning. -/
theorem setSSMParams_frame_counterexample :
    exWorldShort.newSession exShortState.defs.AWSRegion = none ∧
    exWorldShort.getParametersByPath exShortState.defs.AWSRegion (paramPath exShortState) =
      .ok [⟨"/prod/S3Bucket", "my-bucket"⟩] ∧
    (∀ p ∈ [Parameter.mk "/prod/S3Bucket" "my-bucket"],
      ∀ seg, (Split p.name '/')[3]? = some seg → FieldByName seg = none) ∧
    setSSMParams exWorldShort exShortState = .panic exShortState ∧
    setSSMParams exWorldShort exShortState ≠ .ret exShortState none ∧
    Load exWorldShort initState = .panic exShortState := by
  refine ⟨by decide, by rfl, ?_, by decide, by decide, by decide⟩
  intro p hp seg hseg
  simp only [List.mem_singleton] at hp
  subst hp
  have hnone : (Split (Parameter.mk "/prod/S3Bucket" "my-bucket").name '/')[3]? = none := by
    decide
  rw [hnone] at hseg
  cases hseg

/-- Claim C5, amended. When the session is created and the store returns
parameters each of which has a segment 3 that names no field of the working
defaults (in particular the empty list), `setSSMParams` returns no error and
leaves the whole state unchanged, so the two remaining steps publish the
values the working defaults held before the step. -/
theorem setSSMParams_frame (w : World) (s : State) (ps : List Parameter)
    (hs : w.newSession s.defs.AWSRegion = none)
    (hf : w.getParametersByPath s.defs.AWSRegion (paramPath s) = .ok ps)
    (h : ∀ p ∈ ps, ∃ seg, (Split p.name '/')[3]? = some seg ∧ FieldByName seg = none) :
    setSSMParams w s = .ret s none ∧
    ∃ s1 e, setFinal (setDynamo (setSSMParams w s).state).state = .ret s1 e ∧
      s1.defs = s.defs ∧
      ∀ F, F ≠ .SsmPath → F ≠ .Stage → s1.c.copyOf F = some (s.defs.get F) := by
  have hloop : ∀ (qs : List Parameter),
      (∀ p ∈ qs, ∃ seg, (Split p.name '/')[3]? = some seg ∧ FieldByName seg = none) →
      setSSMParamsLoop qs s = .ret s none := by
    intro qs
    induction qs with
    | nil => intro _; rfl
    | cons r rs ih =>
      intro hq
      obtain ⟨seg, h3, hF⟩ := hq r (List.mem_cons_self _ _)
      simp only [setSSMParamsLoop, h3, hF]
      exact ih (fun q hq2 => hq q (List.mem_cons_of_mem _ hq2))
  have hstep : setSSMParams w s = .ret s none := by
    simp only [setSSMParams, hs, hf]
    split
    · rfl
    · exact hloop ps h
  refine ⟨hstep, ?_⟩
  rw [hstep]
  obtain ⟨s1, e, h1, h2, h3, _⟩ := setDynamo_setFinal s
  exact ⟨s1, e, h1, h2, h3⟩

/-- Witness of C5 amended: the parameter `/prod/myapp/UnknownField` is
dropped. -/
theorem setSSMParams_frame_witness :
    setSSMParams
        { exWorld with getParametersByPath := fun _ _ => .ok [⟨"/prod/myapp/UnknownField", "x"⟩] }
        exAfterEnv = .ret exAfterEnv none ∧
    ∃ s1 e, setFinal (setDynamo (setSSMParams
        { exWorld with getParametersByPath := fun _ _ => .ok [⟨"/prod/myapp/UnknownField", "x"⟩] }
        exAfterEnv).state).state = .ret s1 e ∧
      s1.defs = exAfterEnv.defs ∧
      ∀ F, F ≠ .SsmPath → F ≠ .Stage → s1.c.copyOf F = some (exAfterEnv.defs.get F) :=
  setSSMParams_frame
    { exWorld with getParametersByPath := fun _ _ => .ok [⟨"/prod/myapp/UnknownField", "x"⟩] }
    exAfterEnv [⟨"/prod/myapp/UnknownField", "x"⟩] (by decide) (by rfl)
    (by
      intro p hp
      simp only [List.mem_singleton] at hp
      subst hp
      exact ⟨"UnknownField", by decide, by decide⟩)

/-- Claim C8, as stated, fails: with the sub-path `my/app` the store returns
`/prod/my/app/S3Bucket`, whose last segment is the field name `S3Bucket`; the
segment consulted is `app`, no field is overridden and `S3Bucket` keeps the
value of the file. -/
theorem setSSMParams_last_segment_counterexample :
    paramPath exDeepState = "/prod/my/app" ∧
    (Split "/prod/my/app/S3Bucket" '/').getLast? = some Field.S3Bucket.name ∧
    (Split "/prod/my/app/S3Bucket" '/')[3]? = some "app" ∧
    setSSMParams exWorldDeep exDeepState = .ret exDeepState none ∧
    (Load exWorldDeep initState).state.defs.S3Bucket = "default-bucket" ∧
    (Load exWorldDeep initState).state.c.S3Bucket = "default-bucket" := by
  refine ⟨by decide, by decide, by decide, by decide, by decide, by decide⟩

/-- Claim C8, amended. For a returned parameter whose name has a segment 3,
the field overridden is the one named by that segment, and no field when it
names none; that segment is the last one when the name has exactly four
segments. -/
theorem setSSMParamsLoop_segment (r : Parameter) (rs : List Parameter) (s : State)
    (seg : String) (h3 : (Split r.name '/')[3]? = some seg) :
    (∀ F : Field, F.name = seg →
      setSSMParamsLoop (r :: rs) s =
        setSSMParamsLoop rs { s with defs := s.defs.set F r.value }) ∧
    ((∀ F : Field, F.name ≠ seg) → setSSMParamsLoop (r :: rs) s = setSSMParamsLoop rs s) ∧
    ((Split r.name '/').length = 4 → (Split r.name '/').getLast? = some seg) := by
  refine ⟨?_, ?_, ?_⟩
  · intro F hF
    subst hF
    simp only [setSSMParamsLoop, h3, FieldByName_name]
  · intro hF
    have hnone : FieldByName seg = none := by
      cases hq : FieldByName seg with
      | none => rfl
      | some G => exact absurd (FieldByName_some hq) (hF G)
    simp only [setSSMParamsLoop, h3, hnone]
  · intro hlen
    generalize Split r.name '/' = l at h3 hlen
    match l, hlen with
    | [a, b, c, d], _ =>
      simp only [List.getElem?_cons_succ, List.getElem?_cons_zero, Option.some.injEq] at h3
      subst h3
      rfl

/-- Witness of C8 amended: `/prod/myapp/S3Bucket` has four segments, the last
being `S3Bucket`, and `S3Bucket` is the field assigned. -/
theorem setSSMParamsLoop_segment_witness :
    (Split (Parameter.mk "/prod/myapp/S3Bucket" "my-bucket").name '/')[3]? = some "S3Bucket" ∧
    ((∀ F : Field, F.name = "S3Bucket" →
      setSSMParamsLoop [⟨"/prod/myapp/S3Bucket", "my-bucket"⟩] exAfterEnv =
        setSSMParamsLoop [] { exAfterEnv with
          defs := exAfterEnv.defs.set F (Parameter.mk "/prod/myapp/S3Bucket" "my-bucket").value }) ∧
    ((∀ F : Field, F.name ≠ "S3Bucket") →
      setSSMParamsLoop [⟨"/prod/myapp/S3Bucket", "my-bucket"⟩] exAfterEnv =
        setSSMParamsLoop [] exAfterEnv) ∧
    ((Split (Parameter.mk "/prod/myapp/S3Bucket" "my-bucket").name '/').length = 4 →
      (Split (Parameter.mk "/prod/myapp/S3Bucket" "my-bucket").name '/').getLast? =
        some "S3Bucket")) :=
  ⟨by decide,
    setSSMParamsLoop_segment ⟨"/prod/myapp/S3Bucket", "my-bucket"⟩ [] exAfterEnv "S3Bucket"
      (by decide)⟩

/-- Claim C10. When the session is created and the store returns the list
`ps`, `setSSMParams` panics (the index 3 is out of range for some name) if and
only if some returned name has fewer than four segments; when every name has
at least four segments, index 3 is in range for each of them and the step
returns a nil error. An empty list never panics, so the statement needs no
assumption that the list is non-empty. -/
theorem setSSMParams_panic_iff (w : World) (s : State) (ps : List Parameter)
    (hs : w.newSession s.defs.AWSRegion = none)
    (hf : w.getParametersByPath s.defs.AWSRegion (paramPath s) = .ok ps) :
    ((∃ s1, setSSMParams w s = .panic s1) ↔ ∃ p ∈ ps, (Split p.name '/').length < 4) ∧
    ((∀ p ∈ ps, 4 ≤ (Split p.name '/').length) →
      (∀ p ∈ ps, ∃ seg, (Split p.name '/')[3]? = some seg) ∧
      ∃ s1, setSSMParams w s = .ret s1 none) := by
  have hstep : setSSMParams w s = setSSMParamsLoop ps s := by
    simp only [setSSMParams, hs, hf]
    split
    · rename_i h0
      rw [List.length_eq_zero.1 h0]
      rfl
    · rfl
  rw [hstep]
  refine ⟨setSSMParamsLoop_panic_iff ps s, ?_⟩
  intro hall
  refine ⟨fun p hp => (getElem?_three_isSome _).2 (hall p hp), ?_⟩
  exact ⟨_, setSSMParamsLoop_ok ps s hall⟩

/-- Witness of C10: the three-segment name `/prod/S3Bucket` makes the step
panic. -/
theorem setSSMParams_panic_iff_witness :
    (Split "/prod/S3Bucket" '/').length = 3 ∧
    (((∃ s1, setSSMParams exWorldShort exShortState = .panic s1) ↔
        ∃ p ∈ [Parameter.mk "/prod/S3Bucket" "my-bucket"], (Split p.name '/').length < 4) ∧
      ((∀ p ∈ [Parameter.mk "/prod/S3Bucket" "my-bucket"], 4 ≤ (Split p.name '/').length) →
        (∀ p ∈ [Parameter.mk "/prod/S3Bucket" "my-bucket"],
          ∃ seg, (Split p.name '/')[3]? = some seg) ∧
        ∃ s1, setSSMParams exWorldShort exShortState = .ret s1 none)) :=
  ⟨by decide,
    setSSMParams_panic_iff exWorldShort exShortState [⟨"/prod/S3Bucket", "my-bucket"⟩]
      (by decide) (by rfl)⟩

/-! ## The chain of steps -/

theorem Load_eq_runSteps (w : World) (s : State) :
    Load w s = runSteps [setDefaults w, setEnvVars w, setSSMParams w, setDynamo, setFinal] s := by
  simp only [Load, runSteps]
  cases setDefaults w s with
  | panic t1 => rfl
  | ret t1 e1 =>
    cases e1 with
    | some e => rfl
    | none =>
      simp only
      cases setEnvVars w t1 with
      | panic t2 => rfl
      | ret t2 e2 =>
        cases e2 with
        | some e => rfl
        | none =>
          simp only
          cases setSSMParams w t2 with
          | panic t3 => rfl
          | ret t3 e3 =>
            cases e3 with
            | some e => rfl
            | none => rfl

theorem Load_ok_iff (w : World) (s s5 : State) :
    Load w s = .ret s5 none ↔
      ∃ s1 s2 s3 s4, setDefaults w s = .ret s1 none ∧ setEnvVars w s1 = .ret s2 none ∧
        setSSMParams w s2 = .ret s3 none ∧ setDynamo s3 = .ret s4 none ∧
        setFinal s4 = .ret s5 none := by
  constructor
  · intro h
    unfold Load at h
    split at h
    · cases h
    · cases h
    · rename_i s1 h1
      split at h
      · cases h
      · cases h
      · rename_i s2 h2
        split at h
        · cases h
        · cases h
        · rename_i s3 h3
          split at h
          · cases h
          · cases h
          · rename_i s4 h4
            exact ⟨s1, s2, s3, s4, h1, h2, h3, h4, h⟩
  · rintro ⟨s1, s2, s3, s4, h1, h2, h3, h4, h5⟩
    simp only [Load, h1, h2, h3, h4, h5]

theorem Load_readError (w : World) (s : State) (e : GoError)
    (h : w.readFile (filePath w s) = .error e) :
    Load w s =
      .ret (if s.c.DefaultsFilePath = "" then
              { s with c := { s.c with DefaultsFilePath := w.defaultPath } } else s)
        (some e) := by
  have hd : setDefaults w s =
      .ret (if s.c.DefaultsFilePath = "" then
              { s with c := { s.c with DefaultsFilePath := w.defaultPath } } else s)
        (some e) := by
    unfold setDefaults
    by_cases hp : s.c.DefaultsFilePath = ""
    · simp only [filePath, hp, if_true] at h
      simp only [hp, if_true, h]
    · simp only [filePath, hp, if_false] at h
      simp only [hp, if_false, h]
  simp only [Load, hd]

/-- A null document read without error makes `setDefaults`, and so `Load`,
panic: no later step runs. -/
theorem Load_nullDocument (w : World) (s : State) (doc : YamlDoc)
    (h : w.readFile (filePath w s) = .ok doc) (he : doc.err = none)
    (hn : doc.isNull = true) :
    ∃ s1, setDefaults w s = .panic s1 ∧ Load w s = .panic s1 := by
  have hd : ∃ s1, setDefaults w s = .panic s1 := by
    unfold setDefaults
    by_cases hp : s.c.DefaultsFilePath = ""
    · simp only [filePath, hp, if_true] at h
      simp only [hp, if_true, h, he, hn]
      exact ⟨_, rfl⟩
    · simp only [filePath, hp, if_false] at h
      simp only [hp, if_false, h, he, hn]
      exact ⟨_, rfl⟩
  obtain ⟨s1, h1⟩ := hd
  exact ⟨s1, h1, by simp only [Load, h1]⟩

/-- Claim C6. `Load` is the linear chain of its five steps in the order
`setDefaults`, `setEnvVars`, `setSSMParams`, `setDynamo`, `setFinal`: the
first step that returns an error ends `Load` with that very error and with the
state that step left, no later step having run; `Load` returns no error
exactly when all five steps do, each starting from the state its predecessor
left; and when reading the defaults file fails, `Load` returns the read error
with the working defaults and the published fields unmodified. -/
theorem Load_chain (w : World) (s : State) :
    Load w s = runSteps [setDefaults w, setEnvVars w, setSSMParams w, setDynamo, setFinal] s ∧
    (∀ s1 e, setDefaults w s = .ret s1 (some e) → Load w s = .ret s1 (some e)) ∧
    (∀ s1 s2 e, setDefaults w s = .ret s1 none → setEnvVars w s1 = .ret s2 (some e) →
      Load w s = .ret s2 (some e)) ∧
    (∀ s1 s2 s3 e, setDefaults w s = .ret s1 none → setEnvVars w s1 = .ret s2 none →
      setSSMParams w s2 = .ret s3 (some e) → Load w s = .ret s3 (some e)) ∧
    (∀ s1 s2 s3 s4 e, setDefaults w s = .ret s1 none → setEnvVars w s1 = .ret s2 none →
      setSSMParams w s2 = .ret s3 none → setDynamo s3 = .ret s4 (some e) →
      Load w s = .ret s4 (some e)) ∧
    (∀ s1 s2 s3 s4, setDefaults w s = .ret s1 none → setEnvVars w s1 = .ret s2 none →
      setSSMParams w s2 = .ret s3 none → setDynamo s3 = .ret s4 none →
      Load w s = setFinal s4) ∧
    (∀ s5, Load w s = .ret s5 none ↔
      ∃ s1 s2 s3 s4, setDefaults w s = .ret s1 none ∧ setEnvVars w s1 = .ret s2 none ∧
        setSSMParams w s2 = .ret s3 none ∧ setDynamo s3 = .ret s4 none ∧
        setFinal s4 = .ret s5 none) ∧
    (∀ e, w.readFile (filePath w s) = .error e →
      ∃ s1, Load w s = .ret s1 (some e) ∧ s1.defs = s.defs ∧ s1.c.toconfig = s.c.toconfig) := by
  refine ⟨Load_eq_runSteps w s, ?_, ?_, ?_, ?_, ?_, Load_ok_iff w s, ?_⟩
  · intro s1 e h1
    simp only [Load, h1]
  · intro s1 s2 e h1 h2
    simp only [Load, h1, h2]
  · intro s1 s2 s3 e h1 h2 h3
    simp only [Load, h1, h2, h3]
  · intro s1 s2 s3 s4 e h1 h2 h3 h4
    simp only [Load, h1, h2, h3, h4]
  · intro s1 s2 s3 s4 h1 h2 h3 h4
    simp only [Load, h1, h2, h3, h4]
  · intro e h
    refine ⟨_, Load_readError w s e h, ?_, ?_⟩
    · split <;> rfl
    · split <;> rfl

/-- Witness of C6: an unreadable defaults file. `Load` returns the read error,
the working defaults and the published fields are those it started with, and
only the file path of the receiver has been filled in. -/
theorem Load_chain_witness :
    Load exWorldUnreadable initState =
      .ret { initState with c := { initState.c with DefaultsFilePath := "/app/defaults.yaml" } }
        (some ⟨"permission denied"⟩) ∧
    ∃ s1, Load exWorldUnreadable initState = .ret s1 (some ⟨"permission denied"⟩) ∧
      s1.defs = initState.defs ∧ s1.c.toconfig = initState.c.toconfig :=
  ⟨by decide, (Load_chain exWorldUnreadable initState).2.2.2.2.2.2.2 ⟨"permission denied"⟩ rfl⟩

/-! ## Environment variables and the keys of the defaults file -/

theorem envOverride_congr (w w2 : World) (fs : List Field) (d : defaults)
    (h : ∀ f ∈ fs, w2.getenv f.name = w.getenv f.name) :
    envOverride w2 fs d = envOverride w fs d := by
  induction fs generalizing d with
  | nil => rfl
  | cons f fs ih =>
    have hf := h f (List.mem_cons_self _ _)
    have ih2 := fun d => ih d (fun g hg => h g (List.mem_cons_of_mem _ hg))
    simp only [envOverride, List.foldl_cons, hf]
    exact ih2 _

/-- Claim C7, as stated, fails: the file gives `APIVersion: 2012-08-10` and
`Region: ca-central-1`, the variables `APIVersion` and `Region` are set and
non-empty, and after `setEnvVars`, and in the published sub-configuration
after `Load`, the API version and the region are those of the file. -/
theorem setEnvVars_yaml_keys_counterexample :
    exWorldKeys.getenv "APIVersion" = "2020-01-01" ∧
    exWorldKeys.getenv "Region" = "eu-west-1" ∧
    setDefaults exWorldKeys initState = .ret exAfterDefaults none ∧
    exAfterDefaults.defs.DynamoAPIVersion = "2012-08-10" ∧
    exAfterDefaults.defs.DynamoRegion = "ca-central-1" ∧
    setEnvVars exWorldKeys exAfterDefaults = .ret exAfterDefaults none ∧
    (Load exWorldKeys initState).outcome.err = none ∧
    (Load exWorldKeys initState).state.c.Dynamo = some ⟨"2012-08-10", "ca-central-1"⟩ := by
  refine ⟨by decide, by decide, by decide, by decide, by decide, by decide, by decide, by decide⟩

/-- Claim C7, amended. For every field of the working defaults, a non-empty
environment variable whose name is exactly the Go field name overrides
whatever value the field held after the file was read. For nine of the eleven
keys of the file the field name is the key; the fields behind the keys
`APIVersion` and `Region` are named `DynamoAPIVersion` and `DynamoRegion`, and
variables named `APIVersion` and `Region` have no effect on the step. -/
theorem setEnvVars_field_names (w : World) (s : State) (F : Field)
    (he : w.getenv F.name ≠ "") :
    (∃ s1 e, setEnvVars w s = .ret s1 e ∧ s1.defs.get F = w.getenv F.name) ∧
    (F ≠ .DynamoAPIVersion → F ≠ .DynamoRegion → F.name = F.yamlKey) ∧
    (Field.DynamoAPIVersion.yamlKey = "APIVersion" ∧
      Field.DynamoAPIVersion.name = "DynamoAPIVersion" ∧
      Field.DynamoRegion.yamlKey = "Region" ∧
      Field.DynamoRegion.name = "DynamoRegion") ∧
    (∀ w2 : World, (∀ n, n ≠ "APIVersion" → n ≠ "Region" → w2.getenv n = w.getenv n) →
      setEnvVars w2 s = setEnvVars w s) := by
  refine ⟨?_, ?_, ⟨rfl, rfl, rfl, rfl⟩, ?_⟩
  · have hget : (envOverride w fieldList s.defs).get F = w.getenv F.name := by
      rw [envOverride_get]
      simp [mem_fieldList, he]
    rw [setEnvVars_eq, validateStage_eq]
    split
    · exact ⟨_, none, rfl, hget⟩
    · exact ⟨_, some _, rfl, hget⟩
  · intro h1 h2
    cases F <;> first | rfl | exact absurd rfl h1 | exact absurd rfl h2
  · intro w2 h
    rw [setEnvVars_eq, setEnvVars_eq, envOverride_congr w w2]
    intro f _
    apply h
    · cases f <;> decide
    · cases f <;> decide

/-- Witness of C7 amended: the variable `DynamoAPIVersion` overrides the API
version of the file. -/
theorem setEnvVars_field_names_witness :
    (setEnvVars { exWorld with getenv := fun n => if n = "DynamoAPIVersion" then "2020-01-01" else "" }
        exAfterDefaults).state.defs.DynamoAPIVersion = "2020-01-01" ∧
    ((∃ s1 e,
        setEnvVars
          { exWorld with getenv := fun n => if n = "DynamoAPIVersion" then "2020-01-01" else "" }
          exAfterDefaults = .ret s1 e ∧
        s1.defs.get .DynamoAPIVersion = "2020-01-01") ∧
      (Field.DynamoAPIVersion ≠ .DynamoAPIVersion → Field.DynamoAPIVersion ≠ .DynamoRegion →
        Field.DynamoAPIVersion.name = Field.DynamoAPIVersion.yamlKey) ∧
      (Field.DynamoAPIVersion.yamlKey = "APIVersion" ∧
        Field.DynamoAPIVersion.name = "DynamoAPIVersion" ∧
        Field.DynamoRegion.yamlKey = "Region" ∧
        Field.DynamoRegion.name = "DynamoRegion") ∧
      (∀ w2 : World,
        (∀ n, n ≠ "APIVersion" → n ≠ "Region" →
          w2.getenv n = (if n = "DynamoAPIVersion" then "2020-01-01" else "")) →
        setEnvVars w2 exAfterDefaults =
          setEnvVars
            { exWorld with getenv := fun n => if n = "DynamoAPIVersion" then "2020-01-01" else "" }
            exAfterDefaults)) :=
  ⟨by decide,
    setEnvVars_field_names
      { exWorld with getenv := fun n => if n = "DynamoAPIVersion" then "2020-01-01" else "" }
      exAfterDefaults .DynamoAPIVersion (by decide)⟩

/-! ## The working defaults across runs -/

theorem unmarshal_cons (kv : String × String) (l : List (String × String)) (d : defaults) :
    unmarshal (kv :: l) d =
      unmarshal l (match fieldByYamlKey kv.1 with
        | some f => d.set f kv.2
        | none => d) := rfl

/-- A field whose key is in the document, or on which two records agree, is
the same after decoding the document into either record. -/
theorem unmarshal_get_eq (l : List (String × String)) (d1 d2 : defaults) (F : Field)
    (h : F.yamlKey ∈ l.map Prod.fst ∨ d1.get F = d2.get F) :
    (unmarshal l d1).get F = (unmarshal l d2).get F := by
  induction l generalizing d1 d2 with
  | nil =>
    rcases h with h | h
    · simp at h
    · exact h
  | cons kv l ih =>
    rw [unmarshal_cons, unmarshal_cons]
    apply ih
    cases hk : fieldByYamlKey kv.1 with
    | none =>
      rcases h with h | h
      · simp only [List.map_cons, List.mem_cons] at h
        rcases h with h | h
        · rw [← h, fieldByYamlKey_yamlKey] at hk
          cases hk
        · exact Or.inl h
      · exact Or.inr h
    | some G =>
      simp only [get_set]
      by_cases hFG : F = G
      · simp [hFG]
      · rcases h with h | h
        · simp only [List.map_cons, List.mem_cons] at h
          rcases h with h | h
          · rw [← h, fieldByYamlKey_yamlKey] at hk
            exact absurd (Option.some.inj hk) hFG
          · exact Or.inl h
        · simp [hFG, h]

/-- Claim C9, as stated, fails: `defs` is one package-level record that
decoding a mapping overwrites key by key. The second `Load` below reads a file with
the single key `Stage`; started from the working defaults a first `Load` left
behind, it publishes the bucket and the sub-configuration of the first run,
and started from an empty record it publishes empty values. -/
theorem Load_prior_defaults_counterexample :
    (Load exWorld initState).state.defs.S3Bucket = "my-bucket" ∧
    (Load exWorldPartial { c := {}, defs := (Load exWorld initState).state.defs }).outcome =
      { panicked := false, err := none,
        c := { AWSRegion := "ca-central-1", S3Bucket := "my-bucket",
               Dynamo := some ⟨"2012-08-10", "ca-central-1"⟩, Stage := "prod",
               DefaultsFilePath := "/app/defaults.yaml" } } ∧
    (Load exWorldPartial { c := {}, defs := {} }).outcome =
      { panicked := false, err := none,
        c := { Dynamo := some ⟨"", ""⟩, Stage := "prod",
               DefaultsFilePath := "/app/defaults.yaml" } } ∧
    (Load exWorldPartial { c := {}, defs := (Load exWorld initState).state.defs }).outcome ≠
      (Load exWorldPartial { c := {}, defs := {} }).outcome := by
  refine ⟨by decide, by decide, by decide, by decide⟩

/-- Claim C9, amended. The working defaults record is not created afresh:
its prior contents are an input of `Load`. For the same receiver, file,
environment and parameter store, two runs from different prior working
defaults have the same outcome (panic or not, error, receiver) when the file
cannot be read, or when it is read and its document has all eleven keys. -/
theorem Load_prior_defaults (w : World) (c : Config) (d1 d2 : defaults)
    (h : (∃ e, w.readFile (filePath w { c := c, defs := d1 }) = .error e) ∨
      (∃ doc, w.readFile (filePath w { c := c, defs := d1 }) = .ok doc ∧
        ∀ F : Field, F.yamlKey ∈ doc.pairs.map Prod.fst)) :
    (Load w { c := c, defs := d1 }).outcome = (Load w { c := c, defs := d2 }).outcome := by
  rcases h with ⟨e, he⟩ | ⟨doc, hdoc, hkeys⟩
  · have he2 : w.readFile (filePath w { c := c, defs := d2 }) = .error e := he
    rw [Load_readError w _ e he, Load_readError w _ e he2]
    simp only
    split <;> rfl
  · have hu : unmarshal doc.pairs d1 = unmarshal doc.pairs d2 :=
      defaults_ext (fun F => unmarshal_get_eq doc.pairs d1 d2 F (Or.inl (hkeys F)))
    have hd : setDefaults w { c := c, defs := d1 } = setDefaults w { c := c, defs := d2 } := by
      unfold setDefaults
      by_cases hp : c.DefaultsFilePath = ""
      · simp only [filePath, hp, if_true] at hdoc
        simp only [hp, if_true, hdoc, hu]
      · simp only [filePath, hp, if_false] at hdoc
        simp only [hp, if_false, hdoc, hu]
    simp only [Load, hd]

/-- Witness of C9 amended: a file with all eleven keys, read once into an
empty record and once into the record of the example file. -/
theorem Load_prior_defaults_witness :
    (∀ F : Field, F.yamlKey ∈
      [("AWSRegion", "ca-central-1"), ("S3Bucket", "default-bucket"),
        ("S3FilePrefix", "dwnld"), ("CognitoClientID", "client"),
        ("CognitoPoolID", "pool"), ("CognitoRegion", "ca-central-1"),
        ("APIVersion", "2012-08-10"), ("Region", "ca-central-1"),
        ("GraphqlURI", "https://example.com/graphql"), ("SsmPath", "myapp"),
        ("Stage", "prod")].map Prod.fst) ∧
    (Load exWorldFull { c := {}, defs := {} }).outcome =
      (Load exWorldFull { c := {}, defs := exFileDefs }).outcome :=
  ⟨fun F => by cases F <;> decide,
    Load_prior_defaults exWorldFull {} {} exFileDefs
      (Or.inr ⟨_, rfl, fun F => by cases F <;> decide⟩)⟩

end GdpsConfig
